import Mathlib

/-!
Verification of the road-network topology builder and the nearest-facility /
point-to-point routing handlers of the surulere-map service.

The Python sources are shallowly embedded:

* `build_topology_in_python` (src/shapefiles/upload_data.py) is embedded as a
  Lean function over a list of line geometries with exact rational
  coordinates.  Python `round(x, 6)` is modelled as round-half-to-even on
  rationals (`round6`), and shapely's planar `.length` is an oracle parameter
  (`shLen`), since the geometry engine is an external collaborator.
* the SQL post-processing of `setup_database` (SERIAL edge ids, the
  `UPDATE roads SET cost = ST_Length(geom::geography)` overwrite) is embedded
  as `setup_database_roads`, with the PostGIS geographic length as an oracle
  parameter (`geoLen`); `ST_Length(NULL)` is `NULL`, modelled by `Option`.
* the Flask handlers `get_nearest` and `get_route` (src/app.py) are embedded
  with the database collaborators (nearest-facility lookup, nearest-vertex
  snap, `pgr_dijkstra` aggregate row, `ST_Distance(...::geography)`) as
  oracle fields of a dependency record, exactly following the handlers'
  control flow.  Python exceptions that the handlers can raise
  (`None[0]` subscription, pandas column-length mismatch, `IndexError` on an
  empty multiline part) are modelled by `Except PyErr`.

Python's in-place mutation of the input GeoDataFrame (`gdf['source'] = ...`)
is modelled by returning, in `BuildOut.gdf`, the state of the caller's
dataframe object after the call returns.
-/

namespace SuruMap

/-- Exceptions the embedded Python code can raise. -/
inductive PyErr where
  | indexError
  | typeError
  | valueError
deriving DecidableEq, Repr

/-- Python `round` on a rational: round half to even (banker's rounding),
as Python's builtin `round` does. -/
def pyRoundInt (q : Rat) : Int :=
  let f : Int := q.floor
  let frac : Rat := q - (f : Rat)
  if frac < 1/2 then f
  else if 1/2 < frac then f + 1
  else if f % 2 = 0 then f else f + 1

instance {ε α : Type} [DecidableEq ε] [DecidableEq α] :
    DecidableEq (Except ε α) := fun a b =>
  match a, b with
  | .error e1, .error e2 =>
      if h : e1 = e2 then isTrue (by rw [h]) else
        isFalse (by intro hc; cases hc; exact h rfl)
  | .error _, .ok _ => isFalse (by intro hc; cases hc)
  | .ok _, .error _ => isFalse (by intro hc; cases hc)
  | .ok v1, .ok v2 =>
      if h : v1 = v2 then isTrue (by rw [h]) else
        isFalse (by intro hc; cases hc; exact h rfl)

/-- Python `round(x, 6)`: rounding a coordinate to 6 decimal digits. -/
def round6 (q : Rat) : Rat := ((pyRoundInt (q * 1000000) : Rat)) / 1000000

/-- Round both components of a coordinate pair to 6 decimal digits, as in
`(round(c[0], 6), round(c[1], 6))`. -/
def roundPt (p : Rat × Rat) : Rat × Rat := (round6 p.1, round6 p.2)

/-- A line-typed geometry held in the roads GeoDataFrame.
`gnull` is a missing (None) geometry; `line` a LineString (its coordinate
sequence); `multiLine` a MultiLineString (its parts); `other` a non-null,
non-empty geometry whose `.coords` raises `NotImplementedError` and whose
`geom_type` is not `MultiLineString` (e.g. a Polygon). -/
inductive Geom where
  | gnull
  | line (coords : List (Rat × Rat))
  | multiLine (parts : List (List (Rat × Rat)))
  | other
deriving DecidableEq, Repr

/-- `geom is None`. -/
def Geom.isNone : Geom → Bool
  | .gnull => true
  | _ => false

/-- shapely `geom.is_empty` (never consulted on a None geometry because of
Python's short-circuit `or`). -/
def Geom.is_empty : Geom → Bool
  | .gnull => false
  | .line cs => cs.isEmpty
  | .multiLine ps => ps.all (·.isEmpty)
  | .other => false

/-- The `try: geom.coords[0] ... except NotImplementedError:` block of
`build_topology_in_python`: extract the rounded first and last coordinate.
`.ok none` models the `else: continue` branch (the row is skipped);
`.error .indexError` models an uncaught `IndexError`, raised when a
multi-part geometry's first or last part is empty. -/
def endCoords : Geom → Except PyErr (Option ((Rat × Rat) × (Rat × Rat)))
  | .gnull => .ok none
  | .line cs =>
      match cs.head?, cs.getLast? with
      | some a, some b => .ok (some (roundPt a, roundPt b))
      | _, _ => .error .indexError
  | .multiLine ps =>
      match ps.head?, ps.getLast? with
      | some fl, some ll =>
          match fl.head?, ll.getLast? with
          | some a, some b => .ok (some (roundPt a, roundPt b))
          | _, _ => .error .indexError
      | _, _ => .error .indexError
  | .other => .ok none

/-- Lookup in the insertion-ordered association list that models the Python
`nodes` dict (coordinate pair to node id). -/
def lookupC : List ((Rat × Rat) × Nat) → (Rat × Rat) → Option Nat
  | [], _ => none
  | (k, v) :: rest, c => if k = c then some v else lookupC rest c

/-- `if c not in nodes: nodes[c] = node_counter; node_counter += 1` followed
by `nodes[c]`: returns the updated dict, the updated counter and the id. -/
def getOrAlloc (nodes : List ((Rat × Rat) × Nat)) (ctr : Nat) (c : Rat × Rat) :
    List ((Rat × Rat) × Nat) × Nat × Nat :=
  match lookupC nodes c with
  | some v => (nodes, ctr, v)
  | none => (nodes ++ [(c, ctr)], ctr + 1, ctr)

/-- One row of the `sources` / `targets` / `costs` accumulators of
`build_topology_in_python`. -/
structure BRow where
  source : Option Nat
  target : Option Nat
  cost : Rat
deriving DecidableEq, Repr

/-- The `for idx, row in gdf.iterrows()` loop of `build_topology_in_python`,
threading the `nodes` dict, the `node_counter` and the three accumulator
lists (kept as one list of `BRow`, appended to in lockstep as in the
source). -/
def buildLoop (shLen : Geom → Rat) :
    List Geom → List ((Rat × Rat) × Nat) → Nat → List BRow →
    Except PyErr (List ((Rat × Rat) × Nat) × Nat × List BRow)
  | [], nodes, ctr, rows => .ok (nodes, ctr, rows)
  | g :: gs, nodes, ctr, rows =>
      if g.isNone || g.is_empty then
        buildLoop shLen gs nodes ctr (rows ++ [⟨none, none, 0⟩])
      else
        match endCoords g with
        | .error e => .error e
        | .ok none => buildLoop shLen gs nodes ctr rows
        | .ok (some (sc, ec)) =>
            let a1 := getOrAlloc nodes ctr sc
            let a2 := getOrAlloc a1.1 a1.2.1 ec
            buildLoop shLen gs a2.1 a2.2.1
              (rows ++ [⟨some a1.2.2, some a2.2.2, shLen g⟩])

/-- One input road segment: its geometry plus its (optional) name
attribute. -/
structure LineFeature where
  geom : Geom
  name : Option String
deriving DecidableEq, Repr

/-- The roads GeoDataFrame: the input features, plus the `source`, `target`,
`cost` and `reverse_cost` columns, which are absent (`none`) until
`build_topology_in_python` assigns them in place. -/
structure GeoDataFrame where
  features : List LineFeature
  source : Option (List (Option Nat)) := none
  target : Option (List (Option Nat)) := none
  cost : Option (List Rat) := none
  reverse_cost : Option (List Rat) := none
deriving DecidableEq, Repr

/-- Result of `build_topology_in_python`: `gdf` is the state of the caller's
(now mutated) GeoDataFrame object after the call, `rows` the per-line
topology values in input order, and `nodes` the `nodes.items()` list
(coordinate, id) in insertion order, from which `nodes_gdf` is built. -/
structure BuildOut where
  gdf : GeoDataFrame
  rows : List BRow
  nodes : List ((Rat × Rat) × Nat)
deriving DecidableEq, Repr

/-- `build_topology_in_python(gdf)` from src/shapefiles/upload_data.py.
The column assignments `gdf['source'] = sources` raise a pandas
`ValueError` when the accumulated lists are shorter than the dataframe
(which happens exactly when some row was skipped by the
`else: continue` branch). -/
def build_topology_in_python (shLen : Geom → Rat) (gdf : GeoDataFrame) :
    Except PyErr BuildOut :=
  match buildLoop shLen (gdf.features.map (·.geom)) [] 1 [] with
  | .error e => .error e
  | .ok res =>
      if res.2.2.length = gdf.features.length then
        .ok { gdf := { gdf with
                source := some (res.2.2.map (·.source)),
                target := some (res.2.2.map (·.target)),
                cost := some (res.2.2.map (·.cost)),
                reverse_cost := some (res.2.2.map (·.cost)) },
              rows := res.2.2, nodes := res.1 }
      else .error .valueError

/-- One row of the persisted `roads` table after the `setup_database`
post-processing: `id SERIAL PRIMARY KEY` (1-based row order) and the
`UPDATE roads SET cost = ST_Length(geom::geography); reverse_cost = cost`
overwrite. -/
structure PersistedRoad where
  id : Nat
  feature : LineFeature
  source : Option Nat
  target : Option Nat
  cost : Option Rat
  reverse_cost : Option Rat
deriving DecidableEq, Repr

/-- `ST_Length(geom::geography)`: `NULL` on a `NULL` geometry, otherwise the
geographic length given by the PostGIS oracle `geoLen`. -/
def stLengthGeog (geoLen : Geom → Rat) : Geom → Option Rat
  | .gnull => none
  | g => some (geoLen g)

/-- Build one persisted road row from the i-th (0-based) feature/row pair. -/
def persistRow (geoLen : Geom → Rat) (i : Nat) (fr : LineFeature × BRow) :
    PersistedRoad :=
  { id := i + 1, feature := fr.1, source := fr.2.source, target := fr.2.target,
    cost := stLengthGeog geoLen fr.1.geom,
    reverse_cost := stLengthGeog geoLen fr.1.geom }

/-- Persist all rows, numbering ids serially from `i + 1`. -/
def persistAll (geoLen : Geom → Rat) : Nat → List (LineFeature × BRow) →
    List PersistedRoad
  | _, [] => []
  | i, fr :: rest => persistRow geoLen i fr :: persistAll geoLen (i + 1) rest

/-- The roads part of `setup_database` (src/shapefiles/upload_data.py):
run `build_topology_in_python`, upload the mutated dataframe, add the SERIAL
`id` column (1-based in row order) and overwrite `cost` and `reverse_cost`
with `ST_Length(geom::geography)`.  Returns the persisted roads table and
the `roads_vertices_pgr` node table. -/
def setup_database_roads (shLen geoLen : Geom → Rat) (gdf : GeoDataFrame) :
    Except PyErr (List PersistedRoad × List ((Rat × Rat) × Nat)) :=
  match build_topology_in_python shLen gdf with
  | .error e => .error e
  | .ok out => .ok (persistAll geoLen 0 (out.gdf.features.zip out.rows), out.nodes)

/-- The stream of rounded endpoint coordinates allocated by the builder, in
allocation order: for each processed line, its rounded start then its
rounded end; nothing for null/empty or skipped rows. -/
def geomEndpoints (g : Geom) : List (Rat × Rat) :=
  if g.isNone || g.is_empty then []
  else
    match endCoords g with
    | .ok (some (a, b)) => [a, b]
    | _ => []

/-- Concatenated endpoint stream of a whole input sequence. -/
def epStream : List Geom → List (Rat × Rat)
  | [] => []
  | g :: gs => geomEndpoints g ++ epStream gs

/-- Allocate a whole stream of coordinates against the `nodes` dict, as the
builder does one endpoint at a time. -/
def allocAll (nodes : List ((Rat × Rat) × Nat)) (ctr : Nat) :
    List (Rat × Rat) → List ((Rat × Rat) × Nat) × Nat
  | [] => (nodes, ctr)
  | c :: cs =>
      match lookupC nodes c with
      | some _ => allocAll nodes ctr cs
      | none => allocAll (nodes ++ [(c, ctr)]) (ctr + 1) cs

/-- First-seen-wins deduplication: fold the stream, appending each
coordinate the first time it is seen. -/
def firstSeenAux (acc : List (Rat × Rat)) : List (Rat × Rat) → List (Rat × Rat)
  | [] => acc
  | c :: cs => firstSeenAux (if c ∈ acc then acc else acc ++ [c]) cs

/-- Number a list of distinct coordinates with consecutive ids starting at
`n`, in order. -/
def numberFrom (n : Nat) : List (Rat × Rat) → List ((Rat × Rat) × Nat)
  | [] => []
  | c :: cs => (c, n) :: numberFrom (n + 1) cs

/-- Per-row specification of the builder output: a null/empty-geometry row
gets no endpoints and cost 0; a processed row gets both endpoints and the
shapely length of its geometry as cost. -/
def rowMatches (shLen : Geom → Rat) (g : Geom) (r : BRow) : Prop :=
  if g.isNone || g.is_empty then r = ⟨none, none, 0⟩
  else ∃ s t, r.source = some s ∧ r.target = some t ∧ r.cost = shLen g

/- ------------------------------------------------------------------ -/
/- The routing handlers of src/app.py.                                 -/
/- ------------------------------------------------------------------ -/

/-- A GeoJSON geometry as the handlers emit or relay it. -/
inductive GeoJson where
  | point (c : Rat × Rat)
  | lineString (cs : List (Rat × Rat))
  | multiLineString (cs : List (List (Rat × Rat)))
deriving DecidableEq, Repr

/-- The properties object of an emitted feature.  `ptype` is the JSON key
named `type`; absent keys are `none`. -/
structure FeatProps where
  name : Option String := none
  category : Option String := none
  is_target : Option Bool := none
  ptype : Option String := none
  style : Option String := none
  distance_msg : Option String := none
deriving DecidableEq, Repr

/-- An emitted GeoJSON feature. -/
structure Feature where
  geometry : GeoJson
  properties : FeatProps
deriving DecidableEq, Repr

/-- A FeatureCollection response body; `features := none` models the JSON
`null` that `json_agg` produces over zero rows. -/
structure FeatureCollection where
  features : Option (List Feature)
deriving DecidableEq, Repr

/-- Database collaborators consumed by the `/api/nearest` handler for one
request: the nearest matching facility row (name, category, ST_X, ST_Y),
the nearest-vertex snap on `roads_vertices_pgr`, the
`pgr_dijkstra`/`ST_Union`/`SUM` aggregate row (`none` models the
`(NULL, NULL)` row returned when the two vertices are disconnected), and
`ST_Distance(...::geography)`. -/
structure NearestDeps where
  findClosest : Option (String × String × Rat × Rat)
  snap : Rat × Rat → Option Nat
  dijkstra : Nat → Nat → Option (GeoJson × Rat)
  geodesic : Rat × Rat → Rat × Rat → Rat

/-- The `/api/nearest` handler `get_nearest` (src/app.py), following its
control flow exactly: no facility gives an empty collection; otherwise the
destination point feature is emitted first, followed by either the network
route feature or the dashed straight-line fallback feature. -/
def get_nearest (d : NearestDeps) (lat lng : Rat) : FeatureCollection :=
  match d.findClosest with
  | none => { features := some [] }
  | some (target_name, target_cat, target_lng, target_lat) =>
      let start_node_row := d.snap (lng, lat)
      let end_node_row := d.snap (target_lng, target_lat)
      let route_res : Option (Option (GeoJson × Rat)) :=
        match start_node_row, end_node_row with
        | some s, some e => some (d.dijkstra s e)
        | _, _ => none
      let target_feature : Feature :=
        { geometry := .point (target_lng, target_lat),
          properties := { name := some target_name, category := some target_cat,
                          is_target := some true } }
      match route_res with
      | some (some (g, c)) =>
          let total_dist := pyRoundInt c
          { features := some [target_feature,
              { geometry := g,
                properties := { ptype := some "route",
                                distance_msg := some ("Road Distance: " ++
                                  toString total_dist ++ "m") } }] }
      | _ =>
          let straight_dist :=
            pyRoundInt (d.geodesic (lng, lat) (target_lng, target_lat))
          { features := some [target_feature,
              { geometry := .lineString [(lng, lat), (target_lng, target_lat)],
                properties := { ptype := some "route", style := some "dashed",
                                distance_msg := some ("Straight Distance: " ++
                                  toString straight_dist ++
                                  "m (No road path)") } }] }

/-- Database collaborators consumed by the `/api/route` handler: the
nearest-vertex snap (`none` when `roads_vertices_pgr` is empty and
`fetchone()` returns `None`) and the joined `pgr_dijkstra` rows. -/
structure RouteDeps where
  snap : Rat × Rat → Option Nat
  routeRows : Nat → Nat → List Feature

/-- The `/api/route` handler `get_route` (src/app.py).  `cur.fetchone()[0]`
on an empty vertex table subscripts `None` and raises `TypeError`; over an
empty join, `json_agg` yields JSON `null` for `features`, and the resulting
dict is truthy, so it is returned as is. -/
def get_route (d : RouteDeps) (start_lat start_lng end_lat end_lng : Rat) :
    Except PyErr FeatureCollection :=
  match d.snap (start_lng, start_lat) with
  | none => .error .typeError
  | some start_node =>
      match d.snap (end_lng, end_lat) with
      | none => .error .typeError
      | some end_node =>
          let rows := d.routeRows start_node end_node
          .ok { features := if rows.isEmpty then none else some rows }

/-- An edge can be traversed between `u` and `v` (the graph is undirected)
only when both its endpoints are present. -/
def edgeConnects (e : PersistedRoad) (u v : Nat) : Prop :=
  (e.source = some u ∧ e.target = some v) ∨
  (e.source = some v ∧ e.target = some u)

/-- A walk through a sequence of edges from `u` to `v`. -/
def isPath : List PersistedRoad → Nat → Nat → Prop
  | [], u, v => u = v
  | e :: p, u, v => ∃ w, edgeConnects e u w ∧ isPath p w v

/-- The response is the empty (no facility) outcome. -/
def isEmptyResp (r : FeatureCollection) : Prop := r.features = some []

/-- The response is the straight-line fallback outcome: a two-feature
collection whose second feature carries the dashed style. -/
def isStraightResp (r : FeatureCollection) : Prop :=
  ∃ a b, r.features = some [a, b] ∧ b.properties.style = some "dashed"

/-- The response is the network-route outcome: a two-feature collection
whose second feature has no style and the `route` type property. -/
def isNetworkResp (r : FeatureCollection) : Prop :=
  ∃ a b, r.features = some [a, b] ∧ b.properties.style = none ∧
    b.properties.ptype = some "route"

/-- Exactly one of three propositions holds. -/
def ExactlyOne (a b c : Prop) : Prop :=
  (a ∨ b ∨ c) ∧ ¬(a ∧ b) ∧ ¬(a ∧ c) ∧ ¬(b ∧ c)

/-- Properties of the second emitted feature, when there is one. -/
def secondFeatureProps (r : FeatureCollection) : Option FeatProps :=
  match r.features with
  | some [_, f] => some f.properties
  | _ => none

/- ------------------------------------------------------------------ -/
/- Concrete inputs used to exercise the theorems.                      -/
/- ------------------------------------------------------------------ -/

/-- A small roads dataframe: one null geometry and two connected lines. -/
def wGdf : GeoDataFrame :=
  { features := [ { geom := .gnull, name := none },
                  { geom := .line [(0, 0), (1, 1)], name := some "A" },
                  { geom := .line [(1, 1), (2, 0)], name := some "B" } ] }

/-- A constant shapely planar-length oracle. -/
def wShLen : Geom → Rat := fun _ => 3

/-- A constant PostGIS geographic-length oracle. -/
def wGeoLen : Geom → Rat := fun _ => 2

/-- The build output on `wGdf`. -/
def wOut : BuildOut :=
  { gdf := { features := wGdf.features,
             source := some [none, some 1, some 2],
             target := some [none, some 2, some 3],
             cost := some [0, 3, 3],
             reverse_cost := some [0, 3, 3] },
    rows := [⟨none, none, 0⟩, ⟨some 1, some 2, 3⟩, ⟨some 2, some 3, 3⟩],
    nodes := [((0, 0), 1), ((1, 1), 2), ((2, 0), 3)] }

/-- The persisted roads table on `wGdf`. -/
def wLst : List PersistedRoad :=
  [ { id := 1, feature := { geom := .gnull, name := none },
      source := none, target := none, cost := none, reverse_cost := none },
    { id := 2, feature := { geom := .line [(0, 0), (1, 1)], name := some "A" },
      source := some 1, target := some 2, cost := some 2, reverse_cost := some 2 },
    { id := 3, feature := { geom := .line [(1, 1), (2, 0)], name := some "B" },
      source := some 2, target := some 3, cost := some 2, reverse_cost := some 2 } ]

/-- The persisted node table on `wGdf`. -/
def wNds : List ((Rat × Rat) × Nat) := [((0, 0), 1), ((1, 1), 2), ((2, 0), 3)]

/-- The persisted road at index 1 of `wLst`. -/
def wRoad1 : PersistedRoad :=
  { id := 2, feature := { geom := .line [(0, 0), (1, 1)], name := some "A" },
    source := some 1, target := some 2, cost := some 2, reverse_cost := some 2 }

/-- Nearest-query collaborators: a facility is found, both snaps succeed,
the path search reports no path, geodesic distance 10.5. -/
def wNearestDeps : NearestDeps :=
  { findClosest := some ("Clinic", "Hospital", 4, 5),
    snap := fun _ => some 9,
    dijkstra := fun _ _ => none,
    geodesic := fun _ _ => 21/2 }

/-- Nearest-query collaborators under which a network route exists. -/
def c6dN : NearestDeps :=
  { findClosest := some ("F", "Bank", 1, 2),
    snap := fun _ => some 1,
    dijkstra := fun _ _ => some (.lineString [(0, 0), (1, 2)], 5),
    geodesic := fun _ _ => 7 }

/-- Nearest-query collaborators under which no network route exists. -/
def c6dS : NearestDeps :=
  { findClosest := some ("F", "Bank", 1, 2),
    snap := fun _ => some 1,
    dijkstra := fun _ _ => none,
    geodesic := fun _ _ => 7 }

/-- The destination feature emitted for the `c6dN` / `c6dS` facility. -/
def c6tf : Feature :=
  { geometry := .point (1, 2),
    properties := { name := some "F", category := some "Bank",
                    is_target := some true } }

/-- The route feature emitted under `c6dN`. -/
def c6netf : Feature :=
  { geometry := .lineString [(0, 0), (1, 2)],
    properties := { ptype := some "route",
                    distance_msg := some "Road Distance: 5m" } }

/-- The fallback feature emitted under `c6dS`. -/
def c6strf : Feature :=
  { geometry := .lineString [(0, 0), (1, 2)],
    properties := { ptype := some "route", style := some "dashed",
                    distance_msg := some "Straight Distance: 7m (No road path)" } }

/- ------------------------------------------------------------------ -/
/- Helper lemmas.                                                      -/
/- ------------------------------------------------------------------ -/

theorem numberFrom_length (ks : List (Rat × Rat)) :
    ∀ n, (numberFrom n ks).length = ks.length := by
  induction ks with
  | nil => intro n; rfl
  | cons k ks ih => intro n; simp [numberFrom, ih]

theorem numberFrom_append (ks : List (Rat × Rat)) (c : Rat × Rat) :
    ∀ n, numberFrom n (ks ++ [c]) = numberFrom n ks ++ [(c, n + ks.length)] := by
  induction ks with
  | nil => intro n; simp [numberFrom]
  | cons k ks ih =>
      intro n
      have h : n + 1 + ks.length = n + (k :: ks).length := by
        simp only [List.length_cons]; omega
      calc numberFrom n ((k :: ks) ++ [c])
          = (k, n) :: numberFrom (n + 1) (ks ++ [c]) := rfl
        _ = (k, n) :: (numberFrom (n + 1) ks ++ [(c, n + 1 + ks.length)]) := by
              rw [ih (n + 1)]
        _ = numberFrom n (k :: ks) ++ [(c, n + (k :: ks).length)] := by
              rw [h]; rfl

theorem lookupC_numberFrom_eq_none (ks : List (Rat × Rat)) :
    ∀ n c, lookupC (numberFrom n ks) c = none ↔ c ∉ ks := by
  induction ks with
  | nil => intro n c; simp [numberFrom, lookupC]
  | cons k ks ih =>
      intro n c
      by_cases hk : k = c
      · subst hk; simp [numberFrom, lookupC]
      · simp only [numberFrom, lookupC, if_neg hk, ih (n + 1) c, List.mem_cons]
        constructor
        · intro h hmem
          rcases hmem with hc | hc
          · exact hk hc.symm
          · exact h hc
        · intro h hc; exact h (Or.inr hc)

theorem lookupC_numberFrom_mem_bound (ks : List (Rat × Rat)) :
    ∀ n c, c ∈ ks →
      ∃ m, lookupC (numberFrom n ks) c = some m ∧ n ≤ m := by
  induction ks with
  | nil => intro n c hc; cases hc
  | cons k ks ih =>
      intro n c hc
      by_cases hk : k = c
      · exact ⟨n, by simp [numberFrom, lookupC, hk], le_rfl⟩
      · have hc' : c ∈ ks := by
          rcases List.mem_cons.1 hc with hc | hc
          · exact absurd hc.symm hk
          · exact hc
        obtain ⟨m, hm, hle⟩ := ih (n + 1) c hc'
        exact ⟨m, by simp [numberFrom, lookupC, if_neg hk, hm], by omega⟩

theorem lookupC_numberFrom_inj (ks : List (Rat × Rat)) :
    ∀ n c1 c2, c1 ∈ ks → c2 ∈ ks →
      lookupC (numberFrom n ks) c1 = lookupC (numberFrom n ks) c2 → c1 = c2 := by
  induction ks with
  | nil => intro n c1 c2 hc1; cases hc1
  | cons k ks ih =>
      intro n c1 c2 hc1 hc2 heq
      by_cases h1 : k = c1 <;> by_cases h2 : k = c2
      · rw [← h1, ← h2]
      · have hc2' : c2 ∈ ks := by
          rcases List.mem_cons.1 hc2 with hc | hc
          · exact absurd hc.symm h2
          · exact hc
        obtain ⟨m, hm, hle⟩ := lookupC_numberFrom_mem_bound ks (n + 1) c2 hc2'
        rw [show lookupC (numberFrom n (k :: ks)) c1 = some n by
              simp [numberFrom, lookupC, h1],
            show lookupC (numberFrom n (k :: ks)) c2 = some m by
              simp [numberFrom, lookupC, if_neg h2, hm]] at heq
        injection heq with heq'
        exact absurd heq' (by omega)
      · have hc1' : c1 ∈ ks := by
          rcases List.mem_cons.1 hc1 with hc | hc
          · exact absurd hc.symm h1
          · exact hc
        obtain ⟨m, hm, hle⟩ := lookupC_numberFrom_mem_bound ks (n + 1) c1 hc1'
        rw [show lookupC (numberFrom n (k :: ks)) c1 = some m by
              simp [numberFrom, lookupC, if_neg h1, hm],
            show lookupC (numberFrom n (k :: ks)) c2 = some n by
              simp [numberFrom, lookupC, h2]] at heq
        injection heq with heq'
        exact absurd heq' (by omega)
      · have hc1' : c1 ∈ ks := by
          rcases List.mem_cons.1 hc1 with hc | hc
          · exact absurd hc.symm h1
          · exact hc
        have hc2' : c2 ∈ ks := by
          rcases List.mem_cons.1 hc2 with hc | hc
          · exact absurd hc.symm h2
          · exact hc
        refine ih (n + 1) c1 c2 hc1' hc2' ?_
        simpa [numberFrom, lookupC, if_neg h1, if_neg h2] using heq

theorem numberFrom_snd_mem (ks : List (Rat × Rat)) :
    ∀ n v, v ∈ (numberFrom n ks).map Prod.snd → n ≤ v := by
  induction ks with
  | nil => intro n v hv; simp [numberFrom] at hv
  | cons k ks ih =>
      intro n v hv
      simp only [numberFrom, List.map_cons, List.mem_cons] at hv
      rcases hv with hv | hv
      · omega
      · have := ih (n + 1) v hv
        omega

theorem numberFrom_snd_nodup (ks : List (Rat × Rat)) :
    ∀ n, ((numberFrom n ks).map Prod.snd).Nodup := by
  induction ks with
  | nil => intro n; simp [numberFrom]
  | cons k ks ih =>
      intro n
      simp only [numberFrom, List.map_cons, List.nodup_cons]
      refine ⟨fun hmem => ?_, ih (n + 1)⟩
      have := numberFrom_snd_mem ks (n + 1) n hmem
      omega

theorem mem_firstSeenAux (cs : List (Rat × Rat)) :
    ∀ acc x, x ∈ firstSeenAux acc cs ↔ x ∈ acc ∨ x ∈ cs := by
  induction cs with
  | nil => intro acc x; simp [firstSeenAux]
  | cons c cs ih =>
      intro acc x
      by_cases hc : c ∈ acc
      · rw [show firstSeenAux acc (c :: cs) = firstSeenAux acc cs by
            simp [firstSeenAux, hc], ih]
        simp only [List.mem_cons]
        constructor
        · rintro (h | h)
          · exact Or.inl h
          · exact Or.inr (Or.inr h)
        · rintro (h | rfl | h)
          · exact Or.inl h
          · exact Or.inl hc
          · exact Or.inr h
      · rw [show firstSeenAux acc (c :: cs) = firstSeenAux (acc ++ [c]) cs by
            simp [firstSeenAux, hc], ih]
        simp only [List.mem_append, List.mem_cons, List.mem_singleton]
        tauto

theorem nodup_firstSeenAux (cs : List (Rat × Rat)) :
    ∀ acc, acc.Nodup → (firstSeenAux acc cs).Nodup := by
  induction cs with
  | nil => intro acc h; exact h
  | cons c cs ih =>
      intro acc h
      by_cases hc : c ∈ acc
      · rw [show firstSeenAux acc (c :: cs) = firstSeenAux acc cs by
            simp [firstSeenAux, hc]]
        exact ih acc h
      · rw [show firstSeenAux acc (c :: cs) = firstSeenAux (acc ++ [c]) cs by
            simp [firstSeenAux, hc]]
        refine ih (acc ++ [c]) ?_
        simp [List.nodup_append, h, hc]

theorem allocAll_append (xs : List (Rat × Rat)) :
    ∀ ys nodes ctr, allocAll nodes ctr (xs ++ ys) =
      allocAll (allocAll nodes ctr xs).1 (allocAll nodes ctr xs).2 ys := by
  induction xs with
  | nil => intro ys nodes ctr; rfl
  | cons x xs ih =>
      intro ys nodes ctr
      simp only [List.cons_append, allocAll]
      cases lookupC nodes x <;> simp [ih]

theorem allocAll_numberFrom (cs : List (Rat × Rat)) :
    ∀ ks n, allocAll (numberFrom n ks) (n + ks.length) cs =
      (numberFrom n (firstSeenAux ks cs), n + (firstSeenAux ks cs).length) := by
  induction cs with
  | nil => intro ks n; rfl
  | cons c cs ih =>
      intro ks n
      by_cases hc : c ∈ ks
      · obtain ⟨m, hm, _⟩ := lookupC_numberFrom_mem_bound ks n c hc
        simp only [allocAll, hm, firstSeenAux, if_pos hc]
        exact ih ks n
      · have hnone : lookupC (numberFrom n ks) c = none :=
          (lookupC_numberFrom_eq_none ks n c).2 hc
        simp only [allocAll, hnone, firstSeenAux, if_neg hc]
        have h1 : numberFrom n ks ++ [(c, n + ks.length)] = numberFrom n (ks ++ [c]) :=
          (numberFrom_append ks c n).symm
        have h2 : n + ks.length + 1 = n + (ks ++ [c]).length := by
          simp only [List.length_append, List.length_singleton]; omega
        rw [h1, h2]
        exact ih (ks ++ [c]) n

theorem getOrAlloc_state (nodes : List ((Rat × Rat) × Nat)) (ctr : Nat) (c : Rat × Rat) :
    (getOrAlloc nodes ctr c).1 = (allocAll nodes ctr [c]).1 ∧
    (getOrAlloc nodes ctr c).2.1 = (allocAll nodes ctr [c]).2 := by
  unfold getOrAlloc allocAll
  cases lookupC nodes c <;> simp [allocAll]

/-- Master invariant of the builder loop: on success, the final `nodes`
dict and counter are those obtained by allocating the whole endpoint
stream, and the appended rows satisfy the per-row specification when no
row was skipped. -/
theorem buildLoop_spec (shLen : Geom → Rat) :
    ∀ (gs : List Geom) (nodes : List ((Rat × Rat) × Nat)) (ctr : Nat) (rows : List BRow)
      (res : List ((Rat × Rat) × Nat) × Nat × List BRow),
      buildLoop shLen gs nodes ctr rows = .ok res →
      res.1 = (allocAll nodes ctr (epStream gs)).1 ∧
      res.2.1 = (allocAll nodes ctr (epStream gs)).2 ∧
      ∃ app, res.2.2 = rows ++ app ∧ app.length ≤ gs.length ∧
        (app.length = gs.length → List.Forall₂ (rowMatches shLen) gs app) := by
  intro gs
  induction gs with
  | nil =>
      intro nodes ctr rows res h
      simp only [buildLoop, Except.ok.injEq] at h
      subst h
      refine ⟨rfl, rfl, [], by simp, by simp, fun _ => List.Forall₂.nil⟩
  | cons g gs ih =>
      intro nodes ctr rows res h
      simp only [buildLoop] at h
      by_cases hg : (g.isNone || g.is_empty) = true
      · rw [if_pos hg] at h
        obtain ⟨ha, hb, app, happ, hlen, hfa⟩ := ih _ _ _ _ h
        have hep : epStream (g :: gs) = epStream gs := by
          simp [epStream, geomEndpoints, hg]
        refine ⟨by rw [hep]; exact ha, by rw [hep]; exact hb,
          ⟨none, none, 0⟩ :: app, ?_, ?_, ?_⟩
        · rw [happ]; simp
        · simp only [List.length_cons]; omega
        · intro hl
          simp only [List.length_cons] at hl
          refine List.Forall₂.cons ?_ (hfa (by omega))
          simp [rowMatches, hg]
      · rw [if_neg hg] at h
        cases hec : endCoords g with
        | error e => rw [hec] at h; cases h
        | ok oend =>
            rw [hec] at h
            cases oend with
            | none =>
                obtain ⟨ha, hb, app, happ, hlen, _⟩ := ih _ _ _ _ h
                have hep : epStream (g :: gs) = epStream gs := by
                  simp [epStream, geomEndpoints, hg, hec]
                refine ⟨by rw [hep]; exact ha, by rw [hep]; exact hb,
                  app, happ, by simp only [List.length_cons]; omega, ?_⟩
                intro hl
                simp only [List.length_cons] at hl
                omega
            | some pq =>
                obtain ⟨sc, ec⟩ := pq
                simp only at h
                obtain ⟨ha, hb, app, happ, hlen, hfa⟩ := ih _ _ _ _ h
                have hep : epStream (g :: gs) = [sc, ec] ++ epStream gs := by
                  simp [epStream, geomEndpoints, hg, hec]
                have hpair :
                    (allocAll nodes ctr [sc, ec]).1 =
                      (getOrAlloc (getOrAlloc nodes ctr sc).1
                        (getOrAlloc nodes ctr sc).2.1 ec).1 ∧
                    (allocAll nodes ctr [sc, ec]).2 =
                      (getOrAlloc (getOrAlloc nodes ctr sc).1
                        (getOrAlloc nodes ctr sc).2.1 ec).2.1 := by
                  have hsc := getOrAlloc_state nodes ctr sc
                  have he := getOrAlloc_state (getOrAlloc nodes ctr sc).1
                    (getOrAlloc nodes ctr sc).2.1 ec
                  have hsplit := allocAll_append [sc] [ec] nodes ctr
                  constructor
                  · rw [show ([sc, ec] : List (Rat × Rat)) = [sc] ++ [ec] from rfl,
                      hsplit, ← hsc.1, ← hsc.2]
                    exact he.1.symm
                  · rw [show ([sc, ec] : List (Rat × Rat)) = [sc] ++ [ec] from rfl,
                      hsplit, ← hsc.1, ← hsc.2]
                    exact he.2.symm
                rw [hep, allocAll_append]
                refine ⟨?_, ?_, ⟨some (getOrAlloc nodes ctr sc).2.2,
                    some (getOrAlloc (getOrAlloc nodes ctr sc).1
                      (getOrAlloc nodes ctr sc).2.1 ec).2.2, shLen g⟩ :: app,
                  ?_, ?_, ?_⟩
                · rw [hpair.1, hpair.2]; exact ha
                · rw [hpair.1, hpair.2]; exact hb
                · rw [happ]; simp
                · simp only [List.length_cons]; omega
                · intro hl
                  simp only [List.length_cons] at hl
                  refine List.Forall₂.cons ?_ (hfa (by omega))
                  simp [rowMatches, hg]

/-- Specification of a successful build: the input features are preserved,
the four columns are now present and derived from the rows, the rows
correspond 1-1 (in order) to the input lines, and the node table is the
first-seen-wins numbering of the endpoint stream starting at 1. -/
theorem build_ok_spec (shLen : Geom → Rat) (gdf : GeoDataFrame) (out : BuildOut)
    (h : build_topology_in_python shLen gdf = .ok out) :
    out.gdf.features = gdf.features ∧
    out.gdf.source = some (out.rows.map (·.source)) ∧
    out.gdf.target = some (out.rows.map (·.target)) ∧
    out.gdf.cost = some (out.rows.map (·.cost)) ∧
    out.gdf.reverse_cost = some (out.rows.map (·.cost)) ∧
    out.rows.length = gdf.features.length ∧
    List.Forall₂ (rowMatches shLen) (gdf.features.map (·.geom)) out.rows ∧
    out.nodes = numberFrom 1 (firstSeenAux [] (epStream (gdf.features.map (·.geom)))) := by
  unfold build_topology_in_python at h
  split at h
  next e heq => cases h
  next res heq =>
    split at h
    next hlen =>
      injection h with h
      subst h
      obtain ⟨ha, _, app, happ, _, hfa⟩ := buildLoop_spec shLen _ _ _ _ _ heq
      have happ' : res.2.2 = app := by simpa using happ
      rw [← happ'] at hfa
      have hnum := allocAll_numberFrom (epStream (gdf.features.map (·.geom))) [] 1
      simp only [numberFrom, List.length_nil, Nat.add_zero] at hnum
      refine ⟨rfl, rfl, rfl, rfl, rfl, hlen, ?_, ?_⟩
      · exact hfa (by simpa using hlen)
      · rw [ha, hnum]
    next hlen => cases h

theorem forall₂_get?_left {α β : Type} {R : α → β → Prop} :
    ∀ {l1 : List α} {l2 : List β}, List.Forall₂ R l1 l2 →
      ∀ i a, l1.get? i = some a → ∃ b, l2.get? i = some b ∧ R a b := by
  intro l1 l2 hf
  induction hf with
  | nil => intro i a ha; simp at ha
  | cons hr hf ih =>
      intro i a ha
      cases i with
      | zero =>
          simp only [List.get?_cons_zero] at ha
          injection ha with ha
          subst ha
          exact ⟨_, rfl, hr⟩
      | succ n =>
          simp only [List.get?_cons_succ] at ha
          exact ih n a ha

theorem get?_zip_of {α β : Type} (l1 : List α) :
    ∀ (l2 : List β) (i : Nat) (a : α) (b : β),
      l1.get? i = some a → l2.get? i = some b →
      (l1.zip l2).get? i = some (a, b) := by
  induction l1 with
  | nil => intro l2 i a b ha; simp at ha
  | cons x l1 ih =>
      intro l2 i a b ha hb
      cases l2 with
      | nil => simp at hb
      | cons y l2 =>
          cases i with
          | zero =>
              simp only [List.get?_cons_zero] at ha hb
              injection ha with ha
              injection hb with hb
              subst ha; subst hb
              rfl
          | succ n =>
              simp only [List.get?_cons_succ] at ha hb
              simpa [List.zip_cons_cons] using ih l2 n a b ha hb

theorem persistAll_get? (geoLen : Geom → Rat) :
    ∀ (prs : List (LineFeature × BRow)) (k i : Nat),
      (persistAll geoLen k prs).get? i =
        (prs.get? i).map (fun fr => persistRow geoLen (k + i) fr) := by
  intro prs
  induction prs with
  | nil => intro k i; simp [persistAll]
  | cons fr prs ih =>
      intro k i
      cases i with
      | zero => simp [persistAll]
      | succ n =>
          have harith : k + 1 + n = k + (n + 1) := by omega
          simp only [persistAll, List.get?_cons_succ, ih (k + 1) n, harith]

/-- Specification of a successful setup: it is a successful build followed
by serial numbering and the geographic-length cost overwrite. -/
theorem setup_ok_spec (shLen geoLen : Geom → Rat) (gdf : GeoDataFrame)
    (lst : List PersistedRoad) (nds : List ((Rat × Rat) × Nat))
    (h : setup_database_roads shLen geoLen gdf = .ok (lst, nds)) :
    ∃ out, build_topology_in_python shLen gdf = .ok out ∧
      lst = persistAll geoLen 0 (out.gdf.features.zip out.rows) ∧
      nds = out.nodes := by
  unfold setup_database_roads at h
  cases hb : build_topology_in_python shLen gdf with
  | error e => rw [hb] at h; cases h
  | ok out =>
      rw [hb] at h
      injection h with h
      simp only [Prod.mk.injEq] at h
      exact ⟨out, rfl, h.1.symm, h.2.symm⟩

theorem ratFloor_eq_intFloor (q : Rat) : q.floor = ⌊q⌋ := by
  rw [Rat.floor_def', Rat.floor_def]

/-- Python rounding returns a nearest integer: it never deviates from its
argument by more than one half. -/
theorem pyRoundInt_abs (q : Rat) : |(pyRoundInt q : Rat) - q| ≤ 1/2 := by
  have h1 : ((q.floor : Int) : Rat) ≤ q := by
    rw [ratFloor_eq_intFloor]; exact Int.floor_le q
  have h2 : q < ((q.floor : Int) : Rat) + 1 := by
    rw [ratFloor_eq_intFloor]; exact Int.lt_floor_add_one q
  show |(((if q - ((q.floor : Int) : Rat) < 1/2 then q.floor
      else if 1/2 < q - ((q.floor : Int) : Rat) then q.floor + 1
      else if q.floor % 2 = 0 then q.floor else q.floor + 1) : Int) : Rat) - q| ≤ 1/2
  split_ifs with ha hb hc
  · rw [abs_le]; constructor <;> linarith
  · push_cast
    rw [abs_le]; constructor <;> linarith
  · rw [abs_le]; constructor <;> linarith
  · push_cast
    rw [abs_le]; constructor <;> linarith

theorem isPath_mem_connects :
    ∀ (p : List PersistedRoad) (u v : Nat), isPath p u v →
      ∀ e, e ∈ p → ∃ a b, edgeConnects e a b := by
  intro p
  induction p with
  | nil => intro u v _ e he; cases he
  | cons x p ih =>
      intro u v hp e he
      simp only [isPath] at hp
      obtain ⟨w, hx, hrest⟩ := hp
      rcases List.mem_cons.1 he with rfl | he'
      · exact ⟨u, w, hx⟩
      · exact ih w v hrest e he'

/-- Classification facts for any two-feature response. -/
theorem outcome_facts_two (tf : Feature) (geo : GeoJson) (p : FeatProps) :
    (¬ isEmptyResp ⟨some [tf, ⟨geo, p⟩]⟩) ∧
    (isNetworkResp ⟨some [tf, ⟨geo, p⟩]⟩ ↔ p.style = none ∧ p.ptype = some "route") ∧
    (isStraightResp ⟨some [tf, ⟨geo, p⟩]⟩ ↔ p.style = some "dashed") := by
  refine ⟨?_, ?_, ?_⟩
  · intro h
    simp [isEmptyResp] at h
  · constructor
    · rintro ⟨a, b, hab, h1, h2⟩
      have hb2 : b = ⟨geo, p⟩ := by
        have h' : some [tf, (⟨geo, p⟩ : Feature)] = some [a, b] := hab
        simp only [Option.some.injEq, List.cons.injEq] at h'
        exact h'.2.1.symm
      subst hb2
      exact ⟨h1, h2⟩
    · rintro ⟨h1, h2⟩
      exact ⟨tf, ⟨geo, p⟩, rfl, h1, h2⟩
  · constructor
    · rintro ⟨a, b, hab, h1⟩
      have hb2 : b = ⟨geo, p⟩ := by
        have h' : some [tf, (⟨geo, p⟩ : Feature)] = some [a, b] := hab
        simp only [Option.some.injEq, List.cons.injEq] at h'
        exact h'.2.1.symm
      subst hb2
      exact h1
    · intro h1
      exact ⟨tf, ⟨geo, p⟩, rfl, h1⟩

/- ------------------------------------------------------------------ -/
/- Claim theorems.                                                     -/
/- ------------------------------------------------------------------ -/

/-- C1: when a matching facility is found, both endpoints snap to network
vertices, but the path search returns the no-path aggregate row (NULL
geometry), `get_nearest` returns the straight-line fallback: the
destination feature followed by a dashed two-point LineString from origin
to facility whose message reports the geodesic distance rounded by Python
`round` and explicitly says no road path was found; the reported value
deviates from the geodesic distance by at most one half, i.e. it is a
nearest whole unit. -/
theorem nearest_disconnected_straight_line
    (d : NearestDeps) (lat lng : Rat) (tn tc : String) (tlng tlat : Rat)
    (s e : Nat)
    (hfind : d.findClosest = some (tn, tc, tlng, tlat))
    (hs : d.snap (lng, lat) = some s)
    (he : d.snap (tlng, tlat) = some e)
    (hroute : d.dijkstra s e = none) :
    get_nearest d lat lng = { features := some [
      { geometry := .point (tlng, tlat),
        properties := { name := some tn, category := some tc,
                        is_target := some true } },
      { geometry := .lineString [(lng, lat), (tlng, tlat)],
        properties := { ptype := some "route", style := some "dashed",
                        distance_msg := some ("Straight Distance: " ++
                          toString (pyRoundInt (d.geodesic (lng, lat) (tlng, tlat))) ++
                          "m (No road path)") } }] } ∧
    |((pyRoundInt (d.geodesic (lng, lat) (tlng, tlat)) : Int) : Rat) -
        d.geodesic (lng, lat) (tlng, tlat)| ≤ 1/2 := by
  constructor
  · simp [get_nearest, hfind, hs, he, hroute]
  · exact pyRoundInt_abs _

/-- C1 witness: the theorem applied to the concrete collaborators
`wNearestDeps`, under which the geodesic distance 10.5 is reported as the
even-rounded 10. -/
theorem nearest_disconnected_straight_line_witness :
    get_nearest wNearestDeps 0 0 = { features := some [
      { geometry := .point (4, 5),
        properties := { name := some "Clinic", category := some "Hospital",
                        is_target := some true } },
      { geometry := .lineString [(0, 0), (4, 5)],
        properties := { ptype := some "route", style := some "dashed",
                        distance_msg := some "Straight Distance: 10m (No road path)" } }] } ∧
    |((pyRoundInt ((21 : Rat)/2) : Int) : Rat) - 21/2| ≤ 1/2 := by
  have h := nearest_disconnected_straight_line wNearestDeps 0 0
    "Clinic" "Hospital" 4 5 9 9 rfl rfl rfl rfl
  constructor
  · rw [h.1]
    with_unfolding_all rfl
  · exact h.2

/-- C10: whenever a matching facility is found, the returned collection
starts with the facility itself as a point feature carrying its name and
category and marked `is_target := true`, in every outcome. -/
theorem nearest_includes_target_feature
    (d : NearestDeps) (lat lng : Rat) (tn tc : String) (tlng tlat : Rat)
    (hfind : d.findClosest = some (tn, tc, tlng, tlat)) :
    ∃ rest, (get_nearest d lat lng).features = some
      ({ geometry := .point (tlng, tlat),
         properties := { name := some tn, category := some tc,
                         is_target := some true } } :: rest) := by
  have key : ∃ snd, get_nearest d lat lng = ⟨some
      [{ geometry := .point (tlng, tlat),
         properties := { name := some tn, category := some tc,
                         is_target := some true } }, snd]⟩ := by
    cases h1 : d.snap (lng, lat) with
    | none => exact ⟨_, by simp [get_nearest, hfind, h1]; rfl⟩
    | some s =>
        cases h2 : d.snap (tlng, tlat) with
        | none => exact ⟨_, by simp [get_nearest, hfind, h1, h2]; rfl⟩
        | some e =>
            cases h3 : d.dijkstra s e with
            | none => exact ⟨_, by simp [get_nearest, hfind, h1, h2, h3]; rfl⟩
            | some gc => exact ⟨_, by simp [get_nearest, hfind, h1, h2, h3]; rfl⟩
  obtain ⟨snd, hr⟩ := key
  exact ⟨[snd], by rw [hr]⟩

/-- C10 witness: the theorem applied to the concrete collaborators
`wNearestDeps`. -/
theorem nearest_includes_target_feature_witness :
    ∃ rest, (get_nearest wNearestDeps 0 0).features = some
      ({ geometry := .point (4, 5),
         properties := { name := some "Clinic", category := some "Hospital",
                         is_target := some true } } :: rest) :=
  nearest_includes_target_feature wNearestDeps 0 0 "Clinic" "Hospital" 4 5 rfl

/-- C6 counterexample: the network-route response and the straight-line
response carry the same explicit tag (`type = "route"` on the route
feature); what distinguishes them is the presence or absence of the
optional `style` field (and the message text), so the outcome is not
distinguishable by an explicit tag alone, contrary to the claim. -/
theorem nearest_tag_counterexample :
    isNetworkResp (get_nearest c6dN 0 0) ∧
    isStraightResp (get_nearest c6dS 0 0) ∧
    secondFeatureProps (get_nearest c6dN 0 0) = some c6netf.properties ∧
    secondFeatureProps (get_nearest c6dS 0 0) = some c6strf.properties ∧
    (secondFeatureProps (get_nearest c6dN 0 0)).map FeatProps.ptype =
      (secondFeatureProps (get_nearest c6dS 0 0)).map FeatProps.ptype ∧
    (secondFeatureProps (get_nearest c6dN 0 0)).map FeatProps.style =
      some none ∧
    (secondFeatureProps (get_nearest c6dS 0 0)).map FeatProps.style =
      some (some "dashed") := by
  refine ⟨⟨c6tf, c6netf, ?_, ?_, ?_⟩, ⟨c6tf, c6strf, ?_, ?_⟩, ?_, ?_, ?_, ?_, ?_⟩ <;>
    with_unfolding_all rfl

/-- C6 (amended): every nearest query reaches exactly one of the three
terminal outcomes, and never the empty one when a facility was found; but
any two-feature response carries the same `type = "route"` property on its
route feature, the network/straight distinction resting on the optional
`style` field. -/
theorem nearest_outcome_exactly_one (d : NearestDeps) (lat lng : Rat) :
    ExactlyOne (isEmptyResp (get_nearest d lat lng))
      (isNetworkResp (get_nearest d lat lng))
      (isStraightResp (get_nearest d lat lng)) ∧
    (d.findClosest ≠ none → ¬ isEmptyResp (get_nearest d lat lng)) ∧
    (∀ a b, (get_nearest d lat lng).features = some [a, b] →
      b.properties.ptype = some "route") := by
  cases hfind : d.findClosest with
  | none =>
      have hr : get_nearest d lat lng = ⟨some []⟩ := by
        simp [get_nearest, hfind]
      rw [hr]
      refine ⟨⟨Or.inl rfl, ?_, ?_, ?_⟩, ?_, ?_⟩
      · rintro ⟨-, a, b, hab, -, -⟩; simp [isEmptyResp] at hab
      · rintro ⟨-, a, b, hab, -⟩; simp [isEmptyResp] at hab
      · rintro ⟨⟨a, b, hab, -, -⟩, -⟩; simp [isEmptyResp] at hab
      · intro hne; simp [hfind] at hne
      · intro a b hab; simp at hab
  | some t =>
      obtain ⟨tn, tc, tlng, tlat⟩ := t
      have key : ∃ tf geo p, get_nearest d lat lng = ⟨some [tf, ⟨geo, p⟩]⟩ ∧
          p.ptype = some "route" ∧
          (p.style = none ∨ p.style = some "dashed") := by
        cases h1 : d.snap (lng, lat) with
        | none =>
            refine ⟨{ geometry := .point (tlng, tlat),
                      properties := { name := some tn, category := some tc,
                                      is_target := some true } },
              .lineString [(lng, lat), (tlng, tlat)],
              { ptype := some "route", style := some "dashed",
                distance_msg := some ("Straight Distance: " ++
                  toString (pyRoundInt (d.geodesic (lng, lat) (tlng, tlat))) ++
                  "m (No road path)") },
              ?_, rfl, Or.inr rfl⟩
            simp [get_nearest, hfind, h1]
        | some s =>
            cases h2 : d.snap (tlng, tlat) with
            | none =>
                refine ⟨{ geometry := .point (tlng, tlat),
                          properties := { name := some tn, category := some tc,
                                          is_target := some true } },
                  .lineString [(lng, lat), (tlng, tlat)],
                  { ptype := some "route", style := some "dashed",
                    distance_msg := some ("Straight Distance: " ++
                      toString (pyRoundInt (d.geodesic (lng, lat) (tlng, tlat))) ++
                      "m (No road path)") },
                  ?_, rfl, Or.inr rfl⟩
                simp [get_nearest, hfind, h1, h2]
            | some e =>
                cases h3 : d.dijkstra s e with
                | none =>
                    refine ⟨{ geometry := .point (tlng, tlat),
                              properties := { name := some tn, category := some tc,
                                              is_target := some true } },
                      .lineString [(lng, lat), (tlng, tlat)],
                      { ptype := some "route", style := some "dashed",
                        distance_msg := some ("Straight Distance: " ++
                          toString (pyRoundInt (d.geodesic (lng, lat) (tlng, tlat))) ++
                          "m (No road path)") },
                      ?_, rfl, Or.inr rfl⟩
                    simp [get_nearest, hfind, h1, h2, h3]
                | some gc =>
                    obtain ⟨g, c⟩ := gc
                    refine ⟨{ geometry := .point (tlng, tlat),
                              properties := { name := some tn, category := some tc,
                                              is_target := some true } },
                      g,
                      { ptype := some "route",
                        distance_msg := some ("Road Distance: " ++
                          toString (pyRoundInt c) ++ "m") },
                      ?_, rfl, Or.inl rfl⟩
                    simp [get_nearest, hfind, h1, h2, h3]
      obtain ⟨tf, geo, p, hr, hty, hsty⟩ := key
      rw [hr]
      obtain ⟨hnem, hnet, hstr⟩ := outcome_facts_two tf geo p
      refine ⟨?_, fun _ => hnem, ?_⟩
      · rcases hsty with h | h
        · refine ⟨Or.inr (Or.inl (hnet.2 ⟨h, hty⟩)), ?_, ?_, ?_⟩
          · rintro ⟨he, -⟩; exact hnem he
          · rintro ⟨he, -⟩; exact hnem he
          · rintro ⟨-, hs2⟩
            have := hstr.1 hs2
            rw [h] at this; cases this
        · refine ⟨Or.inr (Or.inr (hstr.2 h)), ?_, ?_, ?_⟩
          · rintro ⟨he, -⟩; exact hnem he
          · rintro ⟨he, -⟩; exact hnem he
          · rintro ⟨hn, -⟩
            have := (hnet.1 hn).1
            rw [h] at this; cases this
      · intro a b hab
        have hb2 : b = ⟨geo, p⟩ := by
          have h' : some [tf, (⟨geo, p⟩ : Feature)] = some [a, b] := hab
          simp only [Option.some.injEq, List.cons.injEq] at h'
          exact h'.2.1.symm
        subst hb2
        exact hty

/-- C6 witness: the amended theorem applied to the concrete collaborators
`c6dS`, discharging the facility-found hypothesis. -/
theorem nearest_outcome_exactly_one_witness :
    ExactlyOne (isEmptyResp (get_nearest c6dS 0 0))
      (isNetworkResp (get_nearest c6dS 0 0))
      (isStraightResp (get_nearest c6dS 0 0)) ∧
    ¬ isEmptyResp (get_nearest c6dS 0 0) := by
  have h := nearest_outcome_exactly_one c6dS 0 0
  exact ⟨h.1, h.2.1 (by with_unfolding_all decide)⟩

/-- C2: evaluating the builder on a single multi-part line whose first part
is empty: the `except NotImplementedError` handler indexes
`first_line.coords[0]` without guarding emptiness, so the builder raises an
uncaught `IndexError` instead of accounting for the line. -/
theorem builder_empty_part_multiline_raises :
    build_topology_in_python (fun _ => 0)
      { features := [ { geom := .multiLine [[], [(0, 0), (1, 1)]], name := none } ] }
      = .error .indexError := by
  with_unfolding_all rfl

/-- C7: evaluating `get_route`.  When both endpoints snap (vertex table
non-empty) and the joined route rows are empty (disconnected components),
the handler returns the no-path response (`features` is JSON null) without
raising; but when the vertex table is empty, `cur.fetchone()` returns
`None` and `None[0]` raises `TypeError` instead of returning an empty
result. -/
theorem route_no_vertex_raises :
    get_route { snap := fun _ => some 1, routeRows := fun _ _ => [] } 1 2 3 4 =
      .ok { features := none } ∧
    get_route { snap := fun _ => none, routeRows := fun _ _ => [] } 1 2 3 4 =
      .error .typeError := by
  constructor <;> rfl

/-- C9 counterexample: `build_topology_in_python` mutates its input
GeoDataFrame in place (the returned roads table is the same object with the
`source`, `target`, `cost`, `reverse_cost` columns added), so after a
successful build on `wGdf` the collection's post-call state differs from
its pre-call state. -/
theorem builder_mutation_counterexample :
    (build_topology_in_python wShLen wGdf).toOption.map BuildOut.gdf ≠
      some wGdf ∧
    (build_topology_in_python wShLen wGdf).toOption ≠ none := by
  constructor <;> with_unfolding_all decide

/-- C9 (amended): the builder leaves every input LineFeature (its geometry
and attributes) unchanged — the `features` column of the post-call
dataframe equals the input's — but mutates the collection itself by adding
the `source`, `target`, `cost` and `reverse_cost` columns in place. -/
theorem builder_preserves_features (shLen : Geom → Rat) (gdf : GeoDataFrame)
    (out : BuildOut) (h : build_topology_in_python shLen gdf = .ok out) :
    out.gdf.features = gdf.features ∧
    out.gdf.source = some (out.rows.map (·.source)) ∧
    out.gdf.target = some (out.rows.map (·.target)) ∧
    out.gdf.cost = some (out.rows.map (·.cost)) ∧
    out.gdf.reverse_cost = some (out.rows.map (·.cost)) := by
  obtain ⟨h1, h2, h3, h4, h5, -, -, -⟩ := build_ok_spec shLen gdf out h
  exact ⟨h1, h2, h3, h4, h5⟩

/-- C9 witness: the amended theorem applied to the concrete build on
`wGdf`. -/
theorem builder_preserves_features_witness :
    wOut.gdf.features = wGdf.features ∧
    wOut.gdf.source = some (wOut.rows.map (·.source)) ∧
    wOut.gdf.target = some (wOut.rows.map (·.target)) ∧
    wOut.gdf.cost = some (wOut.rows.map (·.cost)) ∧
    wOut.gdf.reverse_cost = some (wOut.rows.map (·.cost)) :=
  builder_preserves_features wShLen wGdf wOut (by with_unfolding_all rfl)

/-- C8: topology construction is deterministic — equal inputs give equal
outputs — and moreover the node ids are exactly the first-seen-wins
numbering of the rounded endpoint stream starting at 1, and the persisted
edge ids are exactly the 1-based row positions. -/
theorem topology_deterministic (shLen : Geom → Rat) (g1 g2 : GeoDataFrame)
    (heq : g1 = g2) :
    build_topology_in_python shLen g1 = build_topology_in_python shLen g2 ∧
    (∀ out, build_topology_in_python shLen g1 = .ok out →
      out.nodes = numberFrom 1 (firstSeenAux []
        (epStream (g1.features.map (·.geom))))) ∧
    (∀ geoLen lst nds, setup_database_roads shLen geoLen g1 = .ok (lst, nds) →
      ∀ i r, lst.get? i = some r → r.id = i + 1) := by
  subst heq
  refine ⟨rfl, ?_, ?_⟩
  · intro out h
    exact (build_ok_spec shLen g1 out h).2.2.2.2.2.2.2
  · intro geoLen lst nds h i r hr
    obtain ⟨out, hb, hl, -⟩ := setup_ok_spec shLen geoLen g1 lst nds h
    rw [hl, persistAll_get?] at hr
    cases hp : (out.gdf.features.zip out.rows).get? i with
    | none => rw [hp] at hr; simp at hr
    | some fr =>
        rw [hp] at hr
        simp only [Option.map_some'] at hr
        injection hr with hr
        rw [← hr]
        show (persistRow geoLen (0 + i) fr).id = i + 1
        simp [persistRow]

/-- C8 witness: the theorem applied to the concrete build on `wGdf`,
checking the first-seen node numbering and a persisted edge id. -/
theorem topology_deterministic_witness :
    build_topology_in_python wShLen wGdf = build_topology_in_python wShLen wGdf ∧
    wOut.nodes = numberFrom 1 (firstSeenAux []
      (epStream (wGdf.features.map (·.geom)))) ∧
    wRoad1.id = 1 + 1 := by
  have h := topology_deterministic wShLen wGdf wGdf rfl
  refine ⟨h.1, h.2.1 wOut (by with_unfolding_all rfl), ?_⟩
  exact h.2.2 wGeoLen wLst wNds (by with_unfolding_all rfl) 1 wRoad1 rfl

/-- C3: in the persisted roads table, every edge whose geometry is neither
null nor empty has cost equal to the geographic length of its geometry
(the `ST_Length(geom::geography)` overwrite, not the planar length the
builder wrote), reverse cost equal to forward cost, and nonnegative cost
whenever the geographic-length oracle is nonnegative. -/
theorem edge_cost_geographic_symmetric (shLen geoLen : Geom → Rat)
    (gdf : GeoDataFrame) (lst : List PersistedRoad)
    (nds : List ((Rat × Rat) × Nat)) (i : Nat) (r : PersistedRoad)
    (hnn : ∀ g, 0 ≤ geoLen g)
    (hok : setup_database_roads shLen geoLen gdf = .ok (lst, nds))
    (hget : lst.get? i = some r)
    (hnnull : r.feature.geom.isNone = false)
    (hnemp : r.feature.geom.is_empty = false) :
    r.cost = some (geoLen r.feature.geom) ∧
    r.reverse_cost = r.cost ∧
    ∀ v, r.cost = some v → 0 ≤ v := by
  obtain ⟨out, hb, hl, -⟩ := setup_ok_spec shLen geoLen gdf lst nds hok
  rw [hl, persistAll_get?] at hget
  cases hp : (out.gdf.features.zip out.rows).get? i with
  | none => rw [hp] at hget; simp at hget
  | some fr =>
      rw [hp] at hget
      simp only [Option.map_some'] at hget
      injection hget with hget
      subst hget
      obtain ⟨⟨g0, nm⟩, br⟩ := fr
      cases g0 with
      | gnull => simp [persistRow, Geom.isNone] at hnnull
      | line cs =>
          refine ⟨rfl, rfl, ?_⟩
          intro v hv
          injection hv with hv
          exact hv ▸ hnn _
      | multiLine ps =>
          refine ⟨rfl, rfl, ?_⟩
          intro v hv
          injection hv with hv
          exact hv ▸ hnn _
      | other =>
          refine ⟨rfl, rfl, ?_⟩
          intro v hv
          injection hv with hv
          exact hv ▸ hnn _

/-- C3 witness: the theorem applied to the persisted row at index 1 of the
concrete setup on `wGdf`, whose geographic-length oracle is constant 2. -/
theorem edge_cost_geographic_symmetric_witness :
    wRoad1.cost = some 2 ∧ wRoad1.reverse_cost = wRoad1.cost ∧
    ∀ v, wRoad1.cost = some v → 0 ≤ v := by
  have h := edge_cost_geographic_symmetric wShLen wGeoLen wGdf wLst wNds 1 wRoad1
    (fun g => by norm_num [wGeoLen]) (by with_unfolding_all rfl) rfl rfl rfl
  exact ⟨h.1, h.2.1, h.2.2⟩

/-- C4: a null or empty input geometry yields a builder row with no
endpoints and cost 0; in the persisted table that edge has no source and
no target, connects no pair of vertices, and therefore belongs to no path,
i.e. it is excluded from every path search. -/
theorem null_geometry_edge_excluded (shLen geoLen : Geom → Rat)
    (gdf : GeoDataFrame) (bout : BuildOut) (lst : List PersistedRoad)
    (nds : List ((Rat × Rat) × Nat)) (i : Nat) (f : LineFeature)
    (hb : build_topology_in_python shLen gdf = .ok bout)
    (hs : setup_database_roads shLen geoLen gdf = .ok (lst, nds))
    (hf : gdf.features.get? i = some f)
    (hne : (f.geom.isNone || f.geom.is_empty) = true) :
    bout.rows.get? i = some ⟨none, none, 0⟩ ∧
    ∃ r, lst.get? i = some r ∧ r.source = none ∧ r.target = none ∧
      (∀ u v, ¬ edgeConnects r u v) ∧
      (∀ p u v, isPath p u v → r ∉ p) := by
  obtain ⟨hfeat, -, -, -, -, -, hfa, -⟩ := build_ok_spec shLen gdf bout hb
  have hgeom : (gdf.features.map (·.geom)).get? i = some f.geom := by
    rw [List.get?_map, hf]; rfl
  obtain ⟨br, hbr, hmatch⟩ := forall₂_get?_left hfa i f.geom hgeom
  have hbr0 : br = ⟨none, none, 0⟩ := by
    simpa [rowMatches, hne] using hmatch
  subst hbr0
  refine ⟨hbr, ?_⟩
  obtain ⟨out, hb2, hl, -⟩ := setup_ok_spec shLen geoLen gdf lst nds hs
  rw [hb] at hb2
  injection hb2 with hb2
  subst hb2
  have hzip : (bout.gdf.features.zip bout.rows).get? i =
      some (f, ⟨none, none, 0⟩) := by
    refine get?_zip_of bout.gdf.features bout.rows i f ⟨none, none, 0⟩ ?_ hbr
    rw [hfeat]; exact hf
  have hr : lst.get? i = some (persistRow geoLen (0 + i) (f, ⟨none, none, 0⟩)) := by
    rw [hl, persistAll_get?, hzip]; rfl
  have hnoc : ∀ u v, ¬ edgeConnects (persistRow geoLen (0 + i)
      (f, ⟨none, none, 0⟩)) u v := by
    intro u v hc
    rcases hc with ⟨h1, -⟩ | ⟨h1, -⟩ <;> simp [persistRow] at h1
  refine ⟨persistRow geoLen (0 + i) (f, ⟨none, none, 0⟩), hr, rfl, rfl, hnoc, ?_⟩
  intro p u v hp hmem
  obtain ⟨a, b, hc⟩ := isPath_mem_connects p u v hp _ hmem
  exact hnoc a b hc

/-- C4 witness: the theorem applied to the null-geometry row (index 0) of
the concrete build and setup on `wGdf`. -/
theorem null_geometry_edge_excluded_witness :
    wOut.rows.get? 0 = some ⟨none, none, 0⟩ ∧
    ∃ r, wLst.get? 0 = some r ∧ r.source = none ∧ r.target = none ∧
      (∀ u v, ¬ edgeConnects r u v) ∧
      (∀ p u v, isPath p u v → r ∉ p) :=
  null_geometry_edge_excluded wShLen wGeoLen wGdf wOut wLst wNds 0
    { geom := .gnull, name := none }
    (by with_unfolding_all rfl) (by with_unfolding_all rfl) rfl rfl

/-- C5: on a successful build, the node-id lookup over the stream of
rounded endpoints of processed lines is defined everywhere and identifies
two endpoints exactly when their rounded coordinates are equal; the node
ids are pairwise distinct and the number of nodes equals the number of
distinct rounded endpoint coordinate values. -/
theorem node_dedup_correct (shLen : Geom → Rat) (gdf : GeoDataFrame)
    (out : BuildOut)
    (hok : build_topology_in_python shLen gdf = .ok out) :
    (∀ c1, c1 ∈ epStream (gdf.features.map (·.geom)) →
     ∀ c2, c2 ∈ epStream (gdf.features.map (·.geom)) →
       ((lookupC out.nodes c1 = lookupC out.nodes c2) ↔ c1 = c2) ∧
       (lookupC out.nodes c1).isSome = true) ∧
    (out.nodes.map Prod.snd).Nodup ∧
    out.nodes.length = (epStream (gdf.features.map (·.geom))).toFinset.card := by
  obtain ⟨-, -, -, -, -, -, -, hnodes⟩ := build_ok_spec shLen gdf out hok
  have hmem : ∀ x, x ∈ firstSeenAux [] (epStream (gdf.features.map (·.geom))) ↔
      x ∈ epStream (gdf.features.map (·.geom)) := by
    intro x
    rw [mem_firstSeenAux]
    simp
  have hnd : (firstSeenAux [] (epStream (gdf.features.map (·.geom)))).Nodup :=
    nodup_firstSeenAux _ [] List.nodup_nil
  refine ⟨?_, ?_, ?_⟩
  · intro c1 h1 c2 h2
    rw [hnodes]
    constructor
    · constructor
      · exact fun h => lookupC_numberFrom_inj _ 1 c1 c2
          ((hmem c1).2 h1) ((hmem c2).2 h2) h
      · intro h; rw [h]
    · obtain ⟨m, hm, -⟩ := lookupC_numberFrom_mem_bound _ 1 c1 ((hmem c1).2 h1)
      rw [hm]; rfl
  · rw [hnodes]
    exact numberFrom_snd_nodup _ 1
  · rw [hnodes, numberFrom_length]
    have hfin : (firstSeenAux [] (epStream (gdf.features.map (·.geom)))).toFinset =
        (epStream (gdf.features.map (·.geom))).toFinset := by
      ext x
      simp only [List.mem_toFinset]
      exact hmem x
    rw [← hfin]
    exact (List.toFinset_card_of_nodup hnd).symm

/-- C5 witness: the theorem applied to the concrete build on `wGdf`: the
rounded endpoint (0, 0) has a node id, the node ids are distinct, and the
node count equals the number of distinct rounded endpoints. -/
theorem node_dedup_correct_witness :
    (lookupC wOut.nodes ((0 : Rat), (0 : Rat))).isSome = true ∧
    (wOut.nodes.map Prod.snd).Nodup ∧
    wOut.nodes.length =
      (epStream (wGdf.features.map (·.geom))).toFinset.card := by
  have h := node_dedup_correct wShLen wGdf wOut (by with_unfolding_all rfl)
  refine ⟨?_, h.2.1, h.2.2⟩
  exact (h.1 ((0 : Rat), (0 : Rat)) (by with_unfolding_all decide)
    ((0 : Rat), (0 : Rat)) (by with_unfolding_all decide)).2

end SuruMap
